import Mathlib

/-!
Shallow embedding of the DWML (Digital Weather Markup Language) document
parser classes from `src/index.js`, together with theorems settling the
specification claims about them.

The XML tree provider (xmldom) is modelled by the `XNode` inductive below:
an element node carries a tag name, an attribute list and a child list; a
text node carries its string.  JavaScript exceptions (`TypeError` on a
null dereference, the explicit `throw` in the `DWMLDocument` constructor)
are modelled with `Except String`.  JavaScript `null`/`undefined` results
are modelled with `Option`.  Memoization in the source is semantically
transparent (the getters are pure), so the embedding simply recomputes.
-/

/-- An xmldom node: element (nodeType 1) or text (nodeType 3). -/
inductive XNode where
  | element (name : String) (attrs : List (String × String)) (children : List XNode)
  | text (s : String)
deriving Repr

/-- DOM `nodeType`: 1 for elements, 3 for text nodes. -/
def XNode.nodeType : XNode → Nat
  | .element _ _ _ => 1
  | .text _ => 3

/-- DOM `nodeName`: the tag for elements, `#text` for text nodes. -/
def XNode.nodeName : XNode → String
  | .element nm _ _ => nm
  | .text _ => "#text"

/-- DOM `nodeValue`: null for elements, the character data for text nodes. -/
def XNode.nodeValue : XNode → Option String
  | .element _ _ _ => none
  | .text s => some s

/-- DOM `childNodes`. -/
def XNode.childNodes : XNode → List XNode
  | .element _ _ cs => cs
  | .text _ => []

/-- DOM `firstChild` (null when there are no children). -/
def XNode.firstChild (n : XNode) : Option XNode :=
  n.childNodes.head?

/-- xmldom `getAttribute`: the attribute's value, or the empty string when
the attribute is absent (xmldom returns `''`, not null). -/
def getAttributeJS (n : XNode) (name : String) : String :=
  match n with
  | .element _ attrs _ => ((attrs.find? (fun p => p.1 == name)).map (fun p => p.2)).getD ""
  | .text _ => ""

mutual

/-- All elements with the given tag in the subtree rooted at `n`,
including `n` itself, in document (pre-)order. -/
def collectByTag (tag : String) : XNode → List XNode
  | .text _ => []
  | .element nm attrs cs =>
      (if nm = tag then [XNode.element nm attrs cs] else []) ++ collectListByTag tag cs

/-- All elements with the given tag in the subtrees of a node list, in
document order. -/
def collectListByTag (tag : String) : List XNode → List XNode
  | [] => []
  | n :: rest => collectByTag tag n ++ collectListByTag tag rest

end

/-- DOM `element.getElementsByTagName`: matching descendants of `n`
(excluding `n` itself), in document order. -/
def elementsByTag (n : XNode) (tag : String) : List XNode :=
  match n with
  | .text _ => []
  | .element _ _ cs => collectListByTag tag cs

/-- DOM `document.getElementsByTagName`: matching elements anywhere in the
parsed tree (the root element included).  The parsed tree handed to
`DWMLDocument` is modelled by its root element. -/
def docElementsByTag (root : XNode) (tag : String) : List XNode :=
  collectByTag tag root

example : elementsByTag (.element "a" [] [.element "b" [] [.element "b" [] []], .text "x"]) "b"
    = [.element "b" [] [.element "b" [] []], .element "b" [] []] := rfl
example : getAttributeJS (.element "a" [("k", "v")] []) "k" = "v" := rfl
example : getAttributeJS (.element "a" [] []) "k" = "" := rfl

/-- Error string standing for the JavaScript `TypeError` thrown when a
property is read off `null` (here always: `.nodeValue` of a null
`firstChild`). -/
def jsNullDeref : String := "TypeError: Cannot read properties of null"

/-- The JavaScript expression `el.firstChild.nodeValue`: throws a
`TypeError` when `firstChild` is null, otherwise yields the child's
`nodeValue` (which is itself null for element children). -/
def jsFirstChildNodeValue (el : XNode) : Except String (Option String) :=
  match el.firstChild with
  | none => .error jsNullDeref
  | some c => .ok c.nodeValue

/-- Splits a character list at every occurrence of `sep` (JavaScript
`String.prototype.split` with a single-character separator). -/
def splitCharAux (sep : Char) : List Char → List (List Char)
  | [] => [[]]
  | c :: rest =>
      match splitCharAux sep rest with
      | [] => [[c]]
      | h :: t => if c = sep then [] :: h :: t else (c :: h) :: t

/-- JavaScript `s.split(sep)` for a one-character separator. -/
def jsSplit (s : String) (sep : Char) : List String :=
  (splitCharAux sep s.toList).map (fun cs => String.mk cs)

example : jsSplit "k-p24h-n7-3" '-' = ["k", "p24h", "n7", "3"] := rfl
example : jsSplit "" '-' = [""] := rfl

/-- Leading decimal-digit run of a character list as a number, or `none`
when the list does not start with a digit. -/
def leadingNat (cs : List Char) : Option Nat :=
  match cs with
  | c :: _ =>
      if c.isDigit then
        some ((cs.takeWhile Char.isDigit).foldl (fun a c => a * 10 + (c.toNat - 48)) 0)
      else none
  | [] => none

/-- Model of JavaScript `parseInt` (radix 10) applied to a possibly-null
string: leading whitespace skipped, optional sign, then the leading digit
run; `NaN` (modelled as `none`) when no digits are found or the input is
null/undefined.  Exotic inputs (hex prefixes etc.) do not occur in layout
keys and are outside the model. -/
def parseIntJS (s : Option String) : Option Int :=
  match s with
  | none => none
  | some str =>
      match str.toList.dropWhile (fun c => c = ' ') with
      | '-' :: rest => (leadingNat rest).map (fun n => -(n : Int))
      | '+' :: rest => (leadingNat rest).map (fun n => (n : Int))
      | cs => (leadingNat cs).map (fun n => (n : Int))

example : parseIntJS (some "3") = some 3 := rfl
example : parseIntJS (some "n7") = none := rfl
example : parseIntJS none = none := rfl

/-- Model of JavaScript `parseFloat` applied to a possibly-null string:
optional sign, integer part, optional fractional part; `NaN` is modelled
as `none`.  Exponents and special forms are outside the model (the claims
treat parsed values as opaque). -/
def parseFloatJS (s : Option String) : Option ℚ :=
  match s with
  | none => none
  | some str =>
      let cs := str.toList.dropWhile (fun c => c = ' ')
      let core := fun (cs : List Char) =>
        match leadingNat cs with
        | none => none
        | some ip =>
            match cs.dropWhile Char.isDigit with
            | '.' :: frac =>
                let ds := frac.takeWhile Char.isDigit
                some ((ip : ℚ) +
                  (ds.foldl (fun a c => a * 10 + (c.toNat - 48)) 0 : ℚ) / ((10 : ℚ) ^ ds.length))
            | _ => some (ip : ℚ)
      match cs with
      | '-' :: rest => (core rest).map (fun q => -q)
      | '+' :: rest => core rest
      | _ => core cs

example : (parseFloatJS (some "72.5")).isSome = true := rfl
example : parseFloatJS (some "abc") = none := rfl

/-- A raw series payload: a parsed numeric value (`DWMLUnitsParameter`)
or an icon-link string (`DWMLConditionsIconsParameter`); in both cases
null/NaN is modelled by an inner `none`. -/
inductive JSVal where
  | num (v : Option ℚ)
  | str (s : Option String)
deriving DecidableEq, Repr

/-- JavaScript property read `obj[k]` on an object modelled as an
ordered association list: value of the first pair with key `k`, or
`undefined` (`none`). -/
def jsGet {α : Type} (m : List (String × α)) (k : String) : Option α :=
  match m with
  | [] => none
  | (k', v) :: rest => if k' = k then some v else jsGet rest k

/-- Sequential effectful map over a list with fail-fast `Except`
semantics (how a thrown exception aborts `Array.from` of a generator). -/
def mapME {α β : Type} (f : α → Except String β) : List α → Except String (List β)
  | [] => .ok []
  | x :: rest =>
      match f x with
      | .error e => .error e
      | .ok y =>
          match mapME f rest with
          | .error e => .error e
          | .ok ys => .ok (y :: ys)

/-- `DWMLLocation#locationKey`: text of the first `location-key`
descendant (`els[0].firstChild.nodeValue`), or null when none exists. -/
def DWMLLocation.locationKey (locEl : XNode) : Except String (Option String) :=
  match elementsByTag locEl "location-key" with
  | [] => .ok none
  | el :: _ => jsFirstChildNodeValue el

/-- `DWMLLocation#point`: latitude/longitude attributes of the first
`point` descendant parsed as floats, or an empty record when absent. -/
structure DWMLPoint where
  latitude : Option (Option ℚ) := none
  longitude : Option (Option ℚ) := none
deriving DecidableEq

/-- `DWMLLocation#point` (the inner `Option` is `NaN` from `parseFloat`;
the outer `Option` is the property being absent entirely). -/
def DWMLLocation.point (locEl : XNode) : DWMLPoint :=
  match elementsByTag locEl "point" with
  | [] => {}
  | pointEl :: _ =>
      { latitude := some (parseFloatJS (some (getAttributeJS pointEl "latitude")))
        longitude := some (parseFloatJS (some (getAttributeJS pointEl "longitude"))) }

/-- `DWMLTimeLayout#layoutKey`: text of the first `layout-key`
descendant, or null when none exists. -/
def DWMLTimeLayout.layoutKey (tlEl : XNode) : Except String (Option String) :=
  match elementsByTag tlEl "layout-key" with
  | [] => .ok none
  | el :: _ => jsFirstChildNodeValue el

/-- Result of `DWMLTimeLayout#parsedKey`; a missing field (`undefined` in
JavaScript) is `none`; `seq` is `none` also when `parseInt` gave `NaN`. -/
structure ParsedKey where
  period : Option String := none
  times : Option String := none
  seq : Option Int := none
deriving DecidableEq, Repr

/-- `DWMLTimeLayout#parsedKey`: splits a truthy key on `-` and reads
tokens 1, 2 and `parseInt` of token 3; empty record for a falsy key. -/
def DWMLTimeLayout.parsedKey (tlEl : XNode) : Except String ParsedKey :=
  match DWMLTimeLayout.layoutKey tlEl with
  | .error e => .error e
  | .ok (some k) =>
      if k = "" then .ok {}
      else
        let parts := jsSplit k '-'
        .ok { period := parts.get? 1, times := parts.get? 2, seq := parseIntJS (parts.get? 3) }
  | .ok none => .ok {}

/-- `DWMLTimeLayout#timeCoordinate`. -/
def DWMLTimeLayout.timeCoordinate (tlEl : XNode) : String :=
  getAttributeJS tlEl "time-coordinate"

/-- One entry of `validTimes`.  The source also stores `startDate`,
`startOffset` (and end counterparts) computed by the moment library from
the same raw strings; no claim concerns those derived fields, so the
model keeps only the raw strings.  `endString = none` models the object
having no end fields (no `end-valid-time` at that index); an inner `none`
models a null `nodeValue`. -/
structure ValidTime where
  startString : Option String
  endString : Option (Option String) := none
deriving DecidableEq, Repr

/-- The end fields at index `i`: nothing when there is no
`end-valid-time` element there, its first child's value otherwise. -/
def endStringAt (endEls : List XNode) (i : Nat) : Except String (Option (Option String)) :=
  match endEls.get? i with
  | none => .ok none
  | some eEl =>
      match jsFirstChildNodeValue eEl with
      | .error e => .error e
      | .ok v => .ok (some v)

def validTimesAux (endEls : List XNode) : List XNode → Nat → Except String (List ValidTime)
  | [], _ => .ok []
  | sEl :: rest, i =>
      match jsFirstChildNodeValue sEl with
      | .error e => .error e
      | .ok sv =>
          match endStringAt endEls i with
          | .error e => .error e
          | .ok ev =>
              match validTimesAux endEls rest (i + 1) with
              | .error e => .error e
              | .ok tail => .ok ({ startString := sv, endString := ev } :: tail)

/-- `DWMLTimeLayout#validTimes`: all valid-time intervals of the layout
element, in document order. -/
def DWMLTimeLayout.validTimes (tlEl : XNode) : Except String (List ValidTime) :=
  validTimesAux (elementsByTag tlEl "end-valid-time") (elementsByTag tlEl "start-valid-time") 0

/-- JavaScript property write `obj[k] = v` on an object modelled as an
ordered association list with unique keys: an existing key keeps its
position but gets the new value; a new key is appended. -/
def jsSet {α : Type} (m : List (String × α)) (k : String) (v : α) : List (String × α) :=
  if m.any (fun p => decide (p.1 = k)) then m.map (fun p => if p.1 = k then (k, v) else p)
  else m ++ [(k, v)]

/-- JavaScript property-key coercion applied to a possibly-null key:
`obj[null]` writes the string key `"null"`. -/
def jsKeyOfOption : Option String → String
  | none => "null"
  | some s => s

/-- The key/value sequence with every key coerced to the string property
key JavaScript actually writes. -/
def coerceKeys {α : Type} (keyed : List (Option String × α)) : List (String × α) :=
  keyed.map (fun p => (jsKeyOfOption p.1, p.2))

/-- The `reduce((obj, cur) => { obj[key] = cur; return obj }, {})` over a
key/value sequence: builds the registry object by repeated `jsSet`. -/
def buildRegistry {α : Type} (keyed : List (Option String × α)) : List (String × α) :=
  (coerceKeys keyed).foldl (fun m p => jsSet m p.1 p.2) []

/-- Number of entries of the object carrying the property key `k`. -/
def countKey {α : Type} (m : List (String × α)) (k : String) : Nat :=
  (m.filter (fun p => decide (p.1 = k))).length

/-- Value of the last pair carrying key `k`, or `none`.  Used to state
the last-write-wins behaviour of the registries. -/
def lastVal {α : Type} (l : List (String × α)) (k : String) : Option α :=
  match l with
  | [] => none
  | (k', v) :: rest =>
      match lastVal rest k with
      | some w => some w
      | none => if k' = k then some v else none

/-- `DWMLDocument`: the parsed tree plus the `data` element selected by
the constructor. -/
structure DWMLDocument where
  xmlDocument : XNode
  dataElement : XNode

/-- `DWMLDocument` constructor: throws `Missing data element` when the
tree has no `data` element, otherwise keeps the first one. -/
def DWMLDocument.make (xmlDoc : XNode) : Except String DWMLDocument :=
  match docElementsByTag xmlDoc "data" with
  | [] => .error "Missing data element"
  | d :: _ => .ok { xmlDocument := xmlDoc, dataElement := d }

/-- The `location` elements under `data` paired with their (possibly
null) location keys, in document order (`locationGen` plus the key read
done by the `reduce`). -/
def locKeyed (dataEl : XNode) : Except String (List (Option String × XNode)) :=
  mapME (fun el =>
    match DWMLLocation.locationKey el with
    | .error e => .error e
    | .ok k => .ok (k, el)) (elementsByTag dataEl "location")

/-- `DWMLDocument#locations`: registry object mapping location key to
location (the wrapper class only stores the element, so the registry
holds elements). -/
def DWMLDocument.locations (dataEl : XNode) : Except String (List (String × XNode)) :=
  match locKeyed dataEl with
  | .error e => .error e
  | .ok keyed => .ok (buildRegistry keyed)

/-- The `time-layout` elements under `data` paired with their (possibly
null) layout keys, in document order. -/
def tlKeyed (dataEl : XNode) : Except String (List (Option String × XNode)) :=
  mapME (fun el =>
    match DWMLTimeLayout.layoutKey el with
    | .error e => .error e
    | .ok k => .ok (k, el)) (elementsByTag dataEl "time-layout")

/-- `DWMLDocument#timeLayouts`: registry object mapping layout key to
time-layout element. -/
def DWMLDocument.timeLayouts (dataEl : XNode) : Except String (List (String × XNode)) :=
  match tlKeyed dataEl with
  | .error e => .error e
  | .ok keyed => .ok (buildRegistry keyed)

/-- The two concrete parameter classes (`DWMLConditionsIconsParameter`
and `DWMLUnitsParameter`). -/
inductive ParamVariant where
  | icons
  | units
deriving DecidableEq, Repr

/-- `ELEMENT_NAME_TO_PARAMETER_CLASS`: tag name to parameter class. -/
def ELEMENT_NAME_TO_PARAMETER_CLASS : List (String × ParamVariant) :=
  [("conditions-icon", .icons),
   ("conditions-icons", .icons),
   ("probability-of-precipitation", .units),
   ("temperature", .units)]

/-- A constructed `DWMLParameter` (fields set by the constructor; the
class chosen by dispatch is recorded in `variant`). -/
structure DWMLParameter where
  variant : ParamVariant
  element : XNode
  locationKey : String
  timeLayoutKey : String
  location : Option XNode
  timeLayout : Option XNode

/-- The resolution step for one key in the `DWMLParameter` constructor:
skipped entirely for a falsy (empty) key, otherwise a registry lookup —
the registry construction itself may throw. -/
def resolveKey (key : String) (registry : Except String (List (String × XNode))) :
    Except String (Option XNode) :=
  if key = "" then .ok none
  else
    match registry with
    | .error e => .error e
    | .ok reg => .ok (jsGet reg key)

/-- The `DWMLParameter` constructor: reads `applicable-location` from
the enclosing `parameters` element and `time-layout` from the parameter
element, and resolves each against the owning document's registry. -/
def DWMLParameter.make (dataEl : XNode) (variant : ParamVariant)
    (parametersEl parameterEl : XNode) : Except String DWMLParameter :=
  let lk := getAttributeJS parametersEl "applicable-location"
  match resolveKey lk (DWMLDocument.locations dataEl) with
  | .error e => .error e
  | .ok loc =>
      let tk := getAttributeJS parameterEl "time-layout"
      match resolveKey tk (DWMLDocument.timeLayouts dataEl) with
      | .error e => .error e
      | .ok tl =>
          .ok { variant := variant, element := parameterEl, locationKey := lk,
                timeLayoutKey := tk, location := loc, timeLayout := tl }

/-- `DWMLParameter#name`: text of the first `name` descendant or null. -/
def DWMLParameter.name (p : DWMLParameter) : Except String (Option String) :=
  match elementsByTag p.element "name" with
  | [] => .ok none
  | el :: _ => jsFirstChildNodeValue el

/-- `DWMLUnitsParameter#valueGen`: the `value` descendants' text parsed
as floats, in document order. -/
def valueGen (paramEl : XNode) : Except String (List JSVal) :=
  mapME (fun v =>
    match jsFirstChildNodeValue v with
    | .error e => .error e
    | .ok t => .ok (JSVal.num (parseFloatJS t))) (elementsByTag paramEl "value")

/-- `DWMLConditionsIconsParameter#iconLinkGen`: the `icon-link`
descendants' text, in document order. -/
def iconLinkGen (paramEl : XNode) : Except String (List JSVal) :=
  mapME (fun v =>
    match jsFirstChildNodeValue v with
    | .error e => .error e
    | .ok t => .ok (JSVal.str t)) (elementsByTag paramEl "icon-link")

/-- The raw value/link sequence of a parameter, per its class
(`valueGen` for the units variant, `iconLinkGen` for the icons one). -/
def DWMLParameter.rawSeq (p : DWMLParameter) : Except String (List JSVal) :=
  match p.variant with
  | .units => valueGen p.element
  | .icons => iconLinkGen p.element

/-- The loop of both `seriesGen` methods: iterate the raw sequence with a
running index into `validTimes`; yield `{ time, value }` only when the
indexed valid time exists (is truthy), silently dropping the raw value
otherwise while the index keeps advancing. -/
def seriesAux (vts : List ValidTime) : List JSVal → Nat → List (ValidTime × JSVal)
  | [], _ => []
  | x :: rest, i =>
      match vts.get? i with
      | some t => (t, x) :: seriesAux vts rest (i + 1)
      | none => seriesAux vts rest (i + 1)

/-- `series` of either parameter class: empty when no time layout was
resolved, otherwise the `seriesGen` pairing of raw values with the
resolved layout's valid times. -/
def DWMLParameter.series (p : DWMLParameter) : Except String (List (ValidTime × JSVal)) :=
  match p.timeLayout with
  | none => .ok []
  | some tlEl =>
      match DWMLTimeLayout.validTimes tlEl with
      | .error e => .error e
      | .ok vts =>
          match p.rawSeq with
          | .error e => .error e
          | .ok raws => .ok (seriesAux vts raws 0)

/-- The direct element children of a `parameters` element that are
mapped by the dispatch table, each with its parameter class. -/
def dispatchedChildren (parametersEl : XNode) : List (ParamVariant × XNode) :=
  parametersEl.childNodes.filterMap fun nd =>
    if nd.nodeType = 1 then
      (jsGet ELEMENT_NAME_TO_PARAMETER_CLASS nd.nodeName).map (fun K => (K, nd))
    else none

/-- `DWMLDocument#parameterGen`: for every `parameters` element under
`data`, every direct element child whose tag is in the dispatch table
yields one constructed parameter, in document order; other children are
skipped. -/
def DWMLDocument.parameters (dataEl : XNode) : Except String (List DWMLParameter) :=
  match mapME (fun parametersEl =>
      mapME (fun Knd => DWMLParameter.make dataEl Knd.1 parametersEl Knd.2)
        (dispatchedChildren parametersEl)) (elementsByTag dataEl "parameters") with
  | .error e => .error e
  | .ok lists => .ok lists.flatten

/-! Concrete DWML fragments used to instantiate the theorems. -/

/-- A location keyed `pt1` with a point. -/
def exLocA : XNode :=
  .element "location" [("id", "A")]
    [.element "location-key" [] [.text "pt1"],
     .element "point" [("latitude", "35.53"), ("longitude", "-121.9")] []]

/-- A second location also keyed `pt1` (duplicate key). -/
def exLocB : XNode :=
  .element "location" [("id", "B")]
    [.element "location-key" [] [.text "pt1"]]

/-- A location with no `location-key` descendant at all. -/
def exNoKeyLoc : XNode :=
  .element "location" [("id", "C")]
    [.element "point" [("latitude", "35.0"), ("longitude", "-120.0")] []]

/-- A second location with no `location-key` descendant. -/
def exNoKeyLocD : XNode :=
  .element "location" [("id", "D")] []

/-- A location whose `location-key` element is empty (no child node). -/
def exEmptyKeyLoc : XNode :=
  .element "location" [] [.element "location-key" [] []]

/-- A location whose `location-key` text is the empty string. -/
def exEmptyTextKeyLoc : XNode :=
  .element "location" [] [.element "location-key" [] [.text ""]]

/-- A time layout with key `k-p24h-n7-3`, two start times and one end
time. -/
def exTimeLayoutEl : XNode :=
  .element "time-layout" [("time-coordinate", "local")]
    [.element "layout-key" [] [.text "k-p24h-n7-3"],
     .element "start-valid-time" [] [.text "2017-07-01T06:00:00-07:00"],
     .element "end-valid-time" [] [.text "2017-07-01T18:00:00-07:00"],
     .element "start-valid-time" [] [.text "2017-07-02T06:00:00-07:00"]]

/-- A time layout with no `layout-key` descendant. -/
def exNoKeyTL : XNode :=
  .element "time-layout" []
    [.element "start-valid-time" [] [.text "2017-07-01T06:00:00-07:00"]]

/-- A time layout whose `layout-key` text is the empty string. -/
def exEmptyTextKeyTL : XNode :=
  .element "time-layout" [] [.element "layout-key" [] [.text ""]]

/-- The valid times of `exTimeLayoutEl`, spelled out. -/
def exValidTimes : List ValidTime :=
  [{ startString := some "2017-07-01T06:00:00-07:00",
     endString := some (some "2017-07-01T18:00:00-07:00") },
   { startString := some "2017-07-02T06:00:00-07:00", endString := none }]

/-- A `conditions-icons` parameter element with three icon links. -/
def exIconsEl : XNode :=
  .element "conditions-icons" [("time-layout", "k-p24h-n7-3"), ("type", "forecast-NWS")]
    [.element "name" [] [.text "Conditions Icons"],
     .element "icon-link" [] [.text "http://example.net/a.jpg"],
     .element "icon-link" [] [.text "http://example.net/b.jpg"],
     .element "icon-link" [] [.text "http://example.net/c.jpg"]]

/-- The raw icon links of `exIconsEl`, spelled out. -/
def exIconRaws : List JSVal :=
  [.str (some "http://example.net/a.jpg"),
   .str (some "http://example.net/b.jpg"),
   .str (some "http://example.net/c.jpg")]

/-- A `temperature` parameter element with two values. -/
def exTempEl : XNode :=
  .element "temperature" [("time-layout", "k-p24h-n7-3"), ("type", "maximum"), ("units", "Fahrenheit")]
    [.element "name" [] [.text "Daily Maximum Temperature"],
     .element "value" [] [.text "72.5"],
     .element "value" [] [.text "68.0"]]

/-- An icons parameter as constructed with `exTimeLayoutEl` resolved. -/
def exIconsParam : DWMLParameter :=
  { variant := .icons, element := exIconsEl, locationKey := "pt1",
    timeLayoutKey := "k-p24h-n7-3", location := some exLocA,
    timeLayout := some exTimeLayoutEl }

/-- A `parameters` block holding a mapped `temperature` child, an
unmapped `hazard-conditions` child and a mapped `conditions-icons`
child, with interspersed text nodes. -/
def exParamsBlock : XNode :=
  .element "parameters" [("applicable-location", "pt1")]
    [.text "\n  ", exTempEl,
     .element "hazard-conditions" [("time-layout", "k-p24h-n7-3")] [], exIconsEl,
     .text "\n"]

/-- A complete `data` element. -/
def exDataEl : XNode :=
  .element "data" [] [exLocA, exTimeLayoutEl, exParamsBlock]

/-- A full parsed document. -/
def exDocRoot : XNode :=
  .element "dwml" [] [.element "head" [] [], exDataEl]

/-- A parsed document with no `data` element anywhere. -/
def exNoData : XNode :=
  .element "dwml" [] [.element "head" [] []]

/-- A `data` element with two locations sharing the key `pt1`. -/
def exDupData : XNode :=
  .element "data" [] [exLocA, exLocB, exTimeLayoutEl]

/-- A `data` element whose two locations and one time layout all lack
keys (their `locationKey` / `layoutKey` is null). -/
def exNullKeyData : XNode :=
  .element "data" [] [exNoKeyLoc, exNoKeyLocD, exNoKeyTL]

/-- A `temperature` element with no `time-layout` attribute. -/
def exC9TempEl : XNode :=
  .element "temperature" [("type", "maximum")] [.element "value" [] [.text "72.5"]]

/-- A `parameters` block with no `applicable-location` attribute. -/
def exC9ParamsEl : XNode :=
  .element "parameters" [] [exC9TempEl]

/-- A `data` element whose registries both contain an entry under the
empty-string key. -/
def exC9Data : XNode :=
  .element "data" [] [exEmptyTextKeyLoc, exEmptyTextKeyTL, exC9ParamsEl]


/-! Helper lemmas. -/

theorem seriesAux_eq_zip (vts : List ValidTime) :
    ∀ (xs : List JSVal) (i : Nat), seriesAux vts xs i = (vts.drop i).zip xs := by
  intro xs
  induction xs with
  | nil => intro i; simp [seriesAux]
  | cons x rest ih =>
      intro i
      rw [seriesAux]
      cases h : vts.get? i with
      | some t =>
          have h' : vts[i]? = some t := by rw [← List.get?_eq_getElem?]; exact h
          obtain ⟨hlt, hget⟩ := List.getElem?_eq_some.mp h'
          rw [List.drop_eq_getElem_cons hlt, hget, List.zip_cons_cons, ih (i + 1)]
      | none =>
          have h' : vts.length ≤ i := by
            rw [List.get?_eq_getElem?] at h
            exact List.getElem?_eq_none_iff.mp h
          rw [ih (i + 1), List.drop_eq_nil_of_le h',
            List.drop_eq_nil_of_le (Nat.le_succ_of_le h')]
          simp

/-- C1: for a parameter whose time-layout key resolved, the series has
exactly `min (raw length) (validTimes length)` entries: raw values
beyond the valid times produce no entry. -/
theorem series_length_eq_min (p : DWMLParameter) (tlEl : XNode)
    (vts : List ValidTime) (raws : List JSVal)
    (htl : p.timeLayout = some tlEl)
    (hv : DWMLTimeLayout.validTimes tlEl = .ok vts)
    (hr : p.rawSeq = .ok raws) :
    ∃ s, p.series = .ok s ∧ s.length = min raws.length vts.length := by
  refine ⟨vts.zip raws, ?_, ?_⟩
  · rw [DWMLParameter.series, htl]
    simp only [hv, hr, seriesAux_eq_zip, List.drop_zero]
  · rw [List.length_zip, Nat.min_comm]

/-- C1 witness: a concrete icons parameter with three icon links and two
valid times yields a two-entry series. -/
theorem series_length_eq_min_witness :
    ∃ s, exIconsParam.series = .ok s ∧ s.length = min exIconRaws.length exValidTimes.length :=
  series_length_eq_min exIconsParam exTimeLayoutEl exValidTimes exIconRaws rfl rfl rfl

/-- C2: series pairing is positional — the i-th series entry carries the
i-th valid time of the resolved layout and the i-th raw value/link. -/
theorem series_pairing_positional (p : DWMLParameter) (tlEl : XNode)
    (vts : List ValidTime) (raws : List JSVal)
    (htl : p.timeLayout = some tlEl)
    (hv : DWMLTimeLayout.validTimes tlEl = .ok vts)
    (hr : p.rawSeq = .ok raws) :
    ∃ s, p.series = .ok s ∧ ∀ i, i < s.length →
      ∃ t v, s.get? i = some (t, v) ∧ vts.get? i = some t ∧ raws.get? i = some v := by
  refine ⟨vts.zip raws, ?_, ?_⟩
  · rw [DWMLParameter.series, htl]
    simp only [hv, hr, seriesAux_eq_zip, List.drop_zero]
  · intro i hi
    have hz : (vts.zip raws)[i]? = some ((vts.zip raws)[i]) := List.getElem?_eq_getElem hi
    obtain ⟨ht, hv2⟩ := List.getElem?_zip_eq_some.mp hz
    refine ⟨(vts.zip raws)[i].1, (vts.zip raws)[i].2, ?_, ?_, ?_⟩
    · rw [List.get?_eq_getElem?, Prod.mk.eta]
      exact hz
    · rw [List.get?_eq_getElem?]
      exact ht
    · rw [List.get?_eq_getElem?]
      exact hv2

/-- C2 witness: the concrete icons parameter's series pairs positionally. -/
theorem series_pairing_positional_witness :
    ∃ s, exIconsParam.series = .ok s ∧ ∀ i, i < s.length →
      ∃ t v, s.get? i = some (t, v) ∧ exValidTimes.get? i = some t ∧
        exIconRaws.get? i = some v :=
  series_pairing_positional exIconsParam exTimeLayoutEl exValidTimes exIconRaws rfl rfl rfl

theorem jsGet_map_set_self {α : Type} (k : String) (v : α) :
    ∀ m : List (String × α), m.any (fun p => decide (p.1 = k)) = true →
      jsGet (m.map (fun p => if p.1 = k then (k, v) else p)) k = some v := by
  intro m
  induction m with
  | nil => simp
  | cons q rest ih =>
      intro h
      obtain ⟨qk, qv⟩ := q
      by_cases hq : qk = k
      · have hd : (if (qk, qv).1 = k then (k, v) else (qk, qv)) = ((k, v) : String × α) := by
          simp [hq]
        rw [List.map_cons, hd]
        simp [jsGet]
      · have hd : (if (qk, qv).1 = k then (k, v) else (qk, qv)) = ((qk, qv) : String × α) := by
          simp [hq]
        rw [List.map_cons, hd]
        simp only [List.any_cons, Bool.or_eq_true, decide_eq_true_eq] at h
        rcases h with h | h
        · exact absurd h hq
        · simp [jsGet, hq, ih h]

theorem jsGet_map_set_ne {α : Type} (k : String) (v : α) {k' : String} (h : k' ≠ k) :
    ∀ m : List (String × α),
      jsGet (m.map (fun p => if p.1 = k then (k, v) else p)) k' = jsGet m k' := by
  intro m
  induction m with
  | nil => rfl
  | cons q rest ih =>
      obtain ⟨qk, qv⟩ := q
      by_cases hq : qk = k
      · have hd : (if (qk, qv).1 = k then (k, v) else (qk, qv)) = ((k, v) : String × α) := by
          simp [hq]
        rw [List.map_cons, hd]
        simp [jsGet, Ne.symm h, hq, ih]
      · have hd : (if (qk, qv).1 = k then (k, v) else (qk, qv)) = ((qk, qv) : String × α) := by
          simp [hq]
        rw [List.map_cons, hd]
        simp [jsGet, ih]

theorem jsGet_eq_none_of_any_eq_false {α : Type} {k : String} :
    ∀ {m : List (String × α)}, m.any (fun p => decide (p.1 = k)) = false → jsGet m k = none := by
  intro m
  induction m with
  | nil => intro _; rfl
  | cons q rest ih =>
      intro h
      obtain ⟨qk, qv⟩ := q
      simp only [List.any_cons, Bool.or_eq_false_iff, decide_eq_false_iff_not] at h
      simp [jsGet, h.1, ih (by simpa using h.2)]

theorem jsGet_append_single {α : Type} (k k' : String) (v : α) :
    ∀ m : List (String × α),
      jsGet (m ++ [(k, v)]) k' = (jsGet m k').or (if k = k' then some v else none) := by
  intro m
  induction m with
  | nil => simp [jsGet]
  | cons q rest ih =>
      obtain ⟨qk, qv⟩ := q
      by_cases hq : qk = k'
      · simp [jsGet, hq]
      · simp [jsGet, hq, ih]

theorem jsGet_jsSet_self {α : Type} (m : List (String × α)) (k : String) (v : α) :
    jsGet (jsSet m k v) k = some v := by
  rw [jsSet]
  split
  case isTrue h => exact jsGet_map_set_self k v m h
  case isFalse h =>
      rw [jsGet_append_single, jsGet_eq_none_of_any_eq_false (Bool.eq_false_iff.mpr h)]
      simp

theorem jsGet_jsSet_ne {α : Type} (m : List (String × α)) {k k' : String} (v : α)
    (h : k' ≠ k) : jsGet (jsSet m k v) k' = jsGet m k' := by
  rw [jsSet]
  split
  case isTrue _ => exact jsGet_map_set_ne k v h m
  case isFalse _ =>
      rw [jsGet_append_single]
      simp [Ne.symm h]

theorem countKey_append_single_self {α : Type} (m : List (String × α)) (k : String) (v : α) :
    countKey (m ++ [(k, v)]) k = countKey m k + 1 := by
  simp [countKey, List.filter_append]

theorem countKey_map_set_self {α : Type} (k : String) (v : α) :
    ∀ m : List (String × α),
      countKey (m.map (fun p => if p.1 = k then (k, v) else p)) k = countKey m k := by
  intro m
  induction m with
  | nil => rfl
  | cons q rest ih =>
      obtain ⟨qk, qv⟩ := q
      by_cases hq : qk = k
      · have hd : (if (qk, qv).1 = k then (k, v) else (qk, qv)) = ((k, v) : String × α) := by
          simp [hq]
        rw [List.map_cons, hd]
        simp only [countKey, List.filter_cons] at ih ⊢
        simp [hq, ih]
      · have hd : (if (qk, qv).1 = k then (k, v) else (qk, qv)) = ((qk, qv) : String × α) := by
          simp [hq]
        rw [List.map_cons, hd]
        simp only [countKey, List.filter_cons] at ih ⊢
        simp [hq, ih]

theorem countKey_map_set_ne {α : Type} (k : String) (v : α) {k' : String} (h : k' ≠ k) :
    ∀ m : List (String × α),
      countKey (m.map (fun p => if p.1 = k then (k, v) else p)) k' = countKey m k' := by
  intro m
  induction m with
  | nil => rfl
  | cons q rest ih =>
      obtain ⟨qk, qv⟩ := q
      by_cases hq : qk = k
      · have hd : (if (qk, qv).1 = k then (k, v) else (qk, qv)) = ((k, v) : String × α) := by
          simp [hq]
        rw [List.map_cons, hd]
        simp only [countKey, List.filter_cons] at ih ⊢
        simp [hq, Ne.symm h, ih]
      · have hd : (if (qk, qv).1 = k then (k, v) else (qk, qv)) = ((qk, qv) : String × α) := by
          simp [hq]
        rw [List.map_cons, hd]
        by_cases hq' : qk = k'
        · simp only [countKey, List.filter_cons] at ih ⊢
          simp [hq', ih]
        · simp only [countKey, List.filter_cons] at ih ⊢
          simp [hq', ih]

theorem countKey_eq_zero_of_any_eq_false {α : Type} {m : List (String × α)} {k : String}
    (h : m.any (fun p => decide (p.1 = k)) = false) : countKey m k = 0 := by
  rw [countKey, List.length_eq_zero, List.filter_eq_nil_iff]
  intro a ha
  have := List.any_eq_false.mp h a ha
  simpa using this

theorem countKey_pos_of_any {α : Type} {m : List (String × α)} {k : String}
    (h : m.any (fun p => decide (p.1 = k)) = true) : 0 < countKey m k := by
  obtain ⟨x, hmem, hx⟩ := List.any_eq_true.mp h
  rw [countKey]
  exact List.length_pos.mpr (List.ne_nil_of_mem (List.mem_filter.mpr ⟨hmem, hx⟩))

theorem countKey_jsSet_self {α : Type} (m : List (String × α)) (k : String) (v : α) :
    countKey (jsSet m k v) k = max 1 (countKey m k) := by
  rw [jsSet]
  split
  case isTrue h =>
      rw [countKey_map_set_self]
      exact (Nat.max_eq_right (countKey_pos_of_any h)).symm
  case isFalse h =>
      have h0 : countKey m k = 0 :=
        countKey_eq_zero_of_any_eq_false (Bool.eq_false_iff.mpr h)
      rw [countKey_append_single_self, h0, Nat.max_eq_left (Nat.zero_le 1)]

theorem countKey_jsSet_ne {α : Type} (m : List (String × α)) {k k' : String} (v : α)
    (h : k' ≠ k) : countKey (jsSet m k v) k' = countKey m k' := by
  rw [jsSet]
  split
  case isTrue _ => exact countKey_map_set_ne k v h m
  case isFalse _ =>
      rw [countKey, List.filter_append]
      simp [countKey, Ne.symm h]

theorem foldl_jsSet_get {α : Type} (k : String) :
    ∀ (l acc : List (String × α)),
      jsGet (l.foldl (fun m p => jsSet m p.1 p.2) acc) k = (lastVal l k).or (jsGet acc k) := by
  intro l
  induction l with
  | nil => intro acc; simp [lastVal]
  | cons q rest ih =>
      intro acc
      obtain ⟨qk, qv⟩ := q
      rw [List.foldl_cons, ih, lastVal]
      cases hl : lastVal rest k with
      | some w => simp
      | none =>
          by_cases hqk : qk = k
          · subst hqk
            simp [jsGet_jsSet_self]
          · simp [hqk, jsGet_jsSet_ne acc qv (Ne.symm hqk)]

theorem foldl_jsSet_count {α : Type} (k : String) :
    ∀ (l acc : List (String × α)),
      countKey (l.foldl (fun m p => jsSet m p.1 p.2) acc) k =
        if l.any (fun p => decide (p.1 = k)) then max 1 (countKey acc k) else countKey acc k := by
  intro l
  induction l with
  | nil => intro acc; simp
  | cons q rest ih =>
      intro acc
      obtain ⟨qk, qv⟩ := q
      rw [List.foldl_cons, ih]
      by_cases hqk : qk = k
      · subst hqk
        simp only [countKey_jsSet_self, List.any_cons, decide_True, Bool.true_or, if_true]
        cases hrest : rest.any (fun p => decide (p.1 = qk)) with
        | true => simp [Nat.max_eq_right (Nat.le_max_left 1 (countKey acc qk))]
        | false => simp
      · rw [countKey_jsSet_ne acc qv (Ne.symm hqk)]
        simp only [List.any_cons, decide_eq_false hqk, Bool.false_or]

theorem lastVal_isSome_of_mem {α : Type} {k : String} {v : α} :
    ∀ {l : List (String × α)}, (k, v) ∈ l → (lastVal l k).isSome = true := by
  intro l
  induction l with
  | nil => intro h; simp at h
  | cons q rest ih =>
      intro h
      obtain ⟨qk, qv⟩ := q
      rw [lastVal]
      cases hl : lastVal rest k with
      | some w => simp
      | none =>
          rcases List.mem_cons.mp h with h1 | h2
          · cases h1
            simp
          · have := ih h2
            rw [hl] at this
            simp at this

theorem buildRegistry_get {α : Type} (keyed : List (Option String × α)) (k : String) :
    jsGet (buildRegistry keyed) k = lastVal (coerceKeys keyed) k := by
  rw [buildRegistry, foldl_jsSet_get]
  simp [jsGet]

theorem buildRegistry_count {α : Type} (keyed : List (Option String × α)) (k : String) :
    countKey (buildRegistry keyed) k =
      if (coerceKeys keyed).any (fun p => decide (p.1 = k)) then 1 else 0 := by
  rw [buildRegistry, foldl_jsSet_count]
  simp [countKey]

theorem buildRegistry_null_key {α : Type} (keyed : List (Option String × α)) (el : α)
    (hmem : (none, el) ∈ keyed) :
    jsGet (buildRegistry keyed) "null" ≠ none ∧
    countKey (buildRegistry keyed) "null" = 1 ∧
    jsGet (buildRegistry keyed) "null" = lastVal (coerceKeys keyed) "null" := by
  have hmem2 : (("null" : String), el) ∈ coerceKeys keyed :=
    List.mem_map.mpr ⟨(none, el), hmem, rfl⟩
  have hsome := lastVal_isSome_of_mem hmem2
  refine ⟨?_, ?_, buildRegistry_get keyed "null"⟩
  · rw [buildRegistry_get]
    intro hcontra
    rw [hcontra] at hsome
    simp at hsome
  · rw [buildRegistry_count]
    have hany : (coerceKeys keyed).any (fun p => decide (p.1 = "null")) = true :=
      List.any_eq_true.mpr ⟨("null", el), hmem2, by simp⟩
    simp [hany]

/-- C4: when several `location` elements share a key, the locations
registry retains exactly one entry under that key, holding the
last-encountered element in document order. -/
theorem locations_duplicate_key_last_wins (dataEl : XNode)
    (keyed : List (Option String × XNode)) (k : String)
    (hk : locKeyed dataEl = .ok keyed)
    (hdup : 2 ≤ countKey (coerceKeys keyed) k) :
    ∃ reg, DWMLDocument.locations dataEl = .ok reg ∧
      countKey reg k = 1 ∧ jsGet reg k = lastVal (coerceKeys keyed) k := by
  refine ⟨buildRegistry keyed, ?_, ?_, buildRegistry_get keyed k⟩
  · simp only [DWMLDocument.locations, hk]
  · rw [buildRegistry_count]
    have hany : (coerceKeys keyed).any (fun p => decide (p.1 = k)) = true := by
      cases hany2 : (coerceKeys keyed).any (fun p => decide (p.1 = k)) with
      | true => rfl
      | false =>
          have := countKey_eq_zero_of_any_eq_false hany2
          omega
    simp [hany]

/-- C4 witness: two locations keyed `pt1`; the registry keeps one entry,
the second element. -/
theorem locations_duplicate_key_last_wins_witness :
    ∃ reg, DWMLDocument.locations exDupData = .ok reg ∧
      countKey reg "pt1" = 1 ∧
      jsGet reg "pt1" =
        lastVal (coerceKeys [(some "pt1", exLocA), (some "pt1", exLocB)]) "pt1" :=
  locations_duplicate_key_last_wins exDupData [(some "pt1", exLocA), (some "pt1", exLocB)]
    "pt1" rfl (by decide)

/-- C5 counterexample: with two locations sharing key `pt1`, the
registry holds the second (`exLocB`, id `B`), not the first-seen one
(`exLocA`, id `A`), so first-seen-wins is false. -/
theorem registries_first_seen_counterexample :
    DWMLDocument.locations exDupData = .ok [("pt1", exLocB)] ∧
    getAttributeJS exLocA "id" = "A" ∧ getAttributeJS exLocB "id" = "B" :=
  ⟨rfl, rfl, rfl⟩

/-- C5 amended: in both the Location and the TimeLayout registry, the
entry stored for a key is the one from the last element in document
order with that key (last write wins). -/
theorem registries_last_write_wins :
    (∀ (dataEl : XNode) (keyed : List (Option String × XNode)) (k : String),
      locKeyed dataEl = .ok keyed →
      ∃ reg, DWMLDocument.locations dataEl = .ok reg ∧
        jsGet reg k = lastVal (coerceKeys keyed) k) ∧
    (∀ (dataEl : XNode) (keyed : List (Option String × XNode)) (k : String),
      tlKeyed dataEl = .ok keyed →
      ∃ reg, DWMLDocument.timeLayouts dataEl = .ok reg ∧
        jsGet reg k = lastVal (coerceKeys keyed) k) := by
  constructor
  · intro dataEl keyed k hk
    exact ⟨buildRegistry keyed, by simp only [DWMLDocument.locations, hk],
      buildRegistry_get keyed k⟩
  · intro dataEl keyed k hk
    exact ⟨buildRegistry keyed, by simp only [DWMLDocument.timeLayouts, hk],
      buildRegistry_get keyed k⟩

/-- C5 (amended) witness: both registries of a concrete document obey
last-write-wins. -/
theorem registries_last_write_wins_witness :
    (∃ reg, DWMLDocument.locations exDupData = .ok reg ∧
      jsGet reg "pt1" =
        lastVal (coerceKeys [(some "pt1", exLocA), (some "pt1", exLocB)]) "pt1") ∧
    (∃ reg, DWMLDocument.timeLayouts exDupData = .ok reg ∧
      jsGet reg "k-p24h-n7-3" =
        lastVal (coerceKeys [(some "k-p24h-n7-3", exTimeLayoutEl)]) "k-p24h-n7-3") :=
  ⟨registries_last_write_wins.1 exDupData _ "pt1" rfl,
   registries_last_write_wins.2 exDupData _ "k-p24h-n7-3" rfl⟩

/-- C10: a location (or time layout) whose key is null is not omitted:
the registry stores it under the string key `"null"`, a lookup with the
literal string `"null"` resolves it, and several null-keyed elements
collapse into that single entry, last one winning. -/
theorem null_key_registry :
    (∀ (dataEl : XNode) (keyed : List (Option String × XNode)) (el : XNode),
      locKeyed dataEl = .ok keyed → (none, el) ∈ keyed →
      ∃ reg, DWMLDocument.locations dataEl = .ok reg ∧
        jsGet reg "null" ≠ none ∧ countKey reg "null" = 1 ∧
        jsGet reg "null" = lastVal (coerceKeys keyed) "null") ∧
    (∀ (dataEl : XNode) (keyed : List (Option String × XNode)) (el : XNode),
      tlKeyed dataEl = .ok keyed → (none, el) ∈ keyed →
      ∃ reg, DWMLDocument.timeLayouts dataEl = .ok reg ∧
        jsGet reg "null" ≠ none ∧ countKey reg "null" = 1 ∧
        jsGet reg "null" = lastVal (coerceKeys keyed) "null") := by
  constructor
  · intro dataEl keyed el hk hmem
    exact ⟨buildRegistry keyed, by simp only [DWMLDocument.locations, hk],
      buildRegistry_null_key keyed el hmem⟩
  · intro dataEl keyed el hk hmem
    exact ⟨buildRegistry keyed, by simp only [DWMLDocument.timeLayouts, hk],
      buildRegistry_null_key keyed el hmem⟩

/-- C10 witness: a document with two keyless locations and one keyless
time layout; both registries expose them under `"null"`. -/
theorem null_key_registry_witness :
    (∃ reg, DWMLDocument.locations exNullKeyData = .ok reg ∧
      jsGet reg "null" ≠ none ∧ countKey reg "null" = 1 ∧
      jsGet reg "null" =
        lastVal (coerceKeys [(none, exNoKeyLoc), (none, exNoKeyLocD)]) "null") ∧
    (∃ reg, DWMLDocument.timeLayouts exNullKeyData = .ok reg ∧
      jsGet reg "null" ≠ none ∧ countKey reg "null" = 1 ∧
      jsGet reg "null" = lastVal (coerceKeys [(none, exNoKeyTL)]) "null") :=
  ⟨null_key_registry.1 exNullKeyData _ exNoKeyLoc rfl (List.mem_cons_self _ _),
   null_key_registry.2 exNullKeyData _ exNoKeyTL rfl (List.mem_cons_self _ _)⟩

/-- C3 counterexample: on a tree with no `data` element the constructor
throws `Missing data element` (capital M), so the message stated by the
claim, `missing data element`, is not the one raised. -/
theorem make_error_message_counterexample :
    DWMLDocument.make exNoData = .error "Missing data element" ∧
    DWMLDocument.make exNoData ≠ .error "missing data element" := by
  constructor
  · rfl
  · intro h
    have h1 : DWMLDocument.make exNoData = .error "Missing data element" := rfl
    rw [h1] at h
    injection h with h2
    exact absurd h2 (by decide)

/-- C3 amended: construction fails with the structural error message
`Missing data element` exactly when the tree has no `data` element, and
otherwise succeeds using the first `data` element. -/
theorem make_data_element (xmlDoc : XNode) :
    (docElementsByTag xmlDoc "data" = [] →
      DWMLDocument.make xmlDoc = .error "Missing data element") ∧
    (∀ d rest, docElementsByTag xmlDoc "data" = d :: rest →
      DWMLDocument.make xmlDoc = .ok { xmlDocument := xmlDoc, dataElement := d }) := by
  constructor
  · intro h
    simp only [DWMLDocument.make, h]
  · intro d rest h
    simp only [DWMLDocument.make, h]

/-- C3 (amended) witness: a tree without `data` fails; a tree with one
succeeds keeping that element. -/
theorem make_data_element_witness :
    DWMLDocument.make exNoData = .error "Missing data element" ∧
    DWMLDocument.make exDocRoot = .ok { xmlDocument := exDocRoot, dataElement := exDataEl } :=
  ⟨(make_data_element exNoData).1 rfl,
   (make_data_element exDocRoot).2 exDataEl [] rfl⟩

/-- C6: a time layout whose layout key is `k-p24h-n7-3` parses to
period `p24h`, times `n7` and sequence number 3. -/
theorem parsedKey_k_p24h_n7_3 (tlEl : XNode)
    (h : DWMLTimeLayout.layoutKey tlEl = .ok (some "k-p24h-n7-3")) :
    DWMLTimeLayout.parsedKey tlEl =
      .ok { period := some "p24h", times := some "n7", seq := some 3 } := by
  simp only [DWMLTimeLayout.parsedKey, h]
  rfl

/-- C6 witness: the concrete layout element with that key. -/
theorem parsedKey_k_p24h_n7_3_witness :
    DWMLTimeLayout.parsedKey exTimeLayoutEl =
      .ok { period := some "p24h", times := some "n7", seq := some 3 } :=
  parsedKey_k_p24h_n7_3 exTimeLayoutEl rfl

theorem mapME_ok_map {α β γ : Type} (f : α → Except String β) (g : β → γ) (gg : α → γ)
    (H : ∀ x y, f x = .ok y → g y = gg x) :
    ∀ (l : List α) (ys : List β), mapME f l = .ok ys → ys.map g = l.map gg := by
  intro l
  induction l with
  | nil =>
      intro ys hys
      simp only [mapME] at hys
      cases hys
      rfl
  | cons x rest ih =>
      intro ys hys
      rw [mapME] at hys
      cases hf : f x with
      | error e => simp [hf] at hys
      | ok y =>
          simp only [hf] at hys
          cases hrest : mapME f rest with
          | error e => simp [hrest] at hys
          | ok ys2 =>
              simp only [hrest] at hys
              cases hys
              simp [H x y hf, ih ys2 hrest]

theorem make_element {dataEl : XNode} {K : ParamVariant} {parametersEl parameterEl : XNode}
    {p : DWMLParameter}
    (h : DWMLParameter.make dataEl K parametersEl parameterEl = .ok p) :
    p.element = parameterEl := by
  simp only [DWMLParameter.make] at h
  split at h
  · simp at h
  · split at h
    · simp at h
    · cases h
      rfl

theorem dispatchedChildren_map_snd (parametersEl : XNode) :
    (dispatchedChildren parametersEl).map (fun Knd => Knd.2) =
      parametersEl.childNodes.filter (fun nd =>
        decide (nd.nodeType = 1) &&
          (jsGet ELEMENT_NAME_TO_PARAMETER_CLASS nd.nodeName).isSome) := by
  rw [dispatchedChildren]
  generalize parametersEl.childNodes = l
  induction l with
  | nil => rfl
  | cons nd rest ih =>
      rw [List.filterMap_cons, List.filter_cons]
      by_cases h1 : nd.nodeType = 1
      · cases hK : jsGet ELEMENT_NAME_TO_PARAMETER_CLASS nd.nodeName with
        | none => simp [h1, hK, ih]
        | some K => simp [h1, hK, ih]
      · simp [h1, ih]

/-- C7: the parameters the Document enumerates are exactly, in document
order, one view per direct element child of each `parameters` element
whose tag is in the dispatch table; unmapped children (for example
`hazard-conditions`) contribute nothing. -/
theorem parameters_dispatch (dataEl : XNode) (ps : List DWMLParameter)
    (h : DWMLDocument.parameters dataEl = .ok ps) :
    ps.map (fun p => p.element) =
      ((elementsByTag dataEl "parameters").map (fun parametersEl =>
        parametersEl.childNodes.filter (fun nd =>
          decide (nd.nodeType = 1) &&
            (jsGet ELEMENT_NAME_TO_PARAMETER_CLASS nd.nodeName).isSome))).flatten := by
  rw [DWMLDocument.parameters] at h
  cases houter : mapME (fun parametersEl =>
      mapME (fun Knd => DWMLParameter.make dataEl Knd.1 parametersEl Knd.2)
        (dispatchedChildren parametersEl)) (elementsByTag dataEl "parameters") with
  | error e => simp [houter] at h
  | ok lists =>
      simp only [houter] at h
      cases h
      rw [List.map_flatten]
      congr 1
      refine mapME_ok_map _ _ _ ?_ (elementsByTag dataEl "parameters") lists houter
      intro parametersEl ys hys
      rw [mapME_ok_map (fun Knd => DWMLParameter.make dataEl Knd.1 parametersEl Knd.2)
        (fun p => p.element) (fun Knd => Knd.2) (fun Knd y hy => make_element hy)
        (dispatchedChildren parametersEl) ys hys]
      exact dispatchedChildren_map_snd parametersEl

/-- C7 witness: the concrete `parameters` block with a `temperature`, a
`hazard-conditions` and a `conditions-icons` child yields exactly the
two mapped views, in order. -/
theorem parameters_dispatch_witness :
    ∃ ps, DWMLDocument.parameters exDataEl = .ok ps ∧
      ps.map (fun p => p.element) = [exTempEl, exIconsEl] :=
  ⟨_, rfl, (parameters_dispatch exDataEl _ rfl).trans (by rfl)⟩

/-- C8 counterexample: a `location-key` element with no child makes
`locationKey` throw a `TypeError` instead of never raising. -/
theorem locationKey_raises_counterexample :
    DWMLLocation.locationKey exEmptyKeyLoc = .error jsNullDeref := rfl

/-- C8 amended: `locationKey` returns null when no `location-key`
descendant exists and the first child's `nodeValue` when the first such
descendant has a child; but when that descendant has no child at all the
access throws a `TypeError`. -/
theorem locationKey_access (locEl : XNode) :
    (elementsByTag locEl "location-key" = [] →
      DWMLLocation.locationKey locEl = .ok none) ∧
    (∀ el rest, elementsByTag locEl "location-key" = el :: rest →
      (∀ c, el.firstChild = some c →
        DWMLLocation.locationKey locEl = .ok c.nodeValue) ∧
      (el.firstChild = none →
        DWMLLocation.locationKey locEl = .error jsNullDeref)) := by
  constructor
  · intro h
    simp only [DWMLLocation.locationKey, h]
  · intro el rest h
    constructor
    · intro c hc
      simp only [DWMLLocation.locationKey, h, jsFirstChildNodeValue, hc]
    · intro hc
      simp only [DWMLLocation.locationKey, h, jsFirstChildNodeValue, hc]

/-- C8 (amended) witness: no key, a text key, and an empty key element. -/
theorem locationKey_access_witness :
    DWMLLocation.locationKey exNoKeyLoc = .ok none ∧
    DWMLLocation.locationKey exLocA = .ok (some "pt1") ∧
    DWMLLocation.locationKey exEmptyKeyLoc = .error jsNullDeref :=
  ⟨(locationKey_access exNoKeyLoc).1 rfl,
   ((locationKey_access exLocA).2 _ _ rfl).1 (XNode.text "pt1") rfl,
   ((locationKey_access exEmptyKeyLoc).2 _ _ rfl).2 rfl⟩

/-- C9: when the `applicable-location` or `time-layout` attribute is
absent or empty (falsy), the constructor never consults the registry for
that key, leaving the resolved reference undefined. -/
theorem falsy_key_skips_lookup (dataEl : XNode) (K : ParamVariant)
    (parametersEl parameterEl : XNode) (p : DWMLParameter)
    (h : DWMLParameter.make dataEl K parametersEl parameterEl = .ok p) :
    (getAttributeJS parametersEl "applicable-location" = "" → p.location = none) ∧
    (getAttributeJS parameterEl "time-layout" = "" → p.timeLayout = none) := by
  constructor
  · intro ha
    simp only [DWMLParameter.make, ha, resolveKey, if_pos] at h
    split at h
    · simp at h
    · cases h
      rfl
  · intro ht
    simp only [DWMLParameter.make, ht, resolveKey] at h
    split at h
    · simp at h
    · cases h
      rfl

/-- C9 witness: both registries of the concrete document do contain an
entry under the empty-string key, yet the constructed parameter with
falsy attributes resolves neither. -/
theorem falsy_key_skips_lookup_witness :
    (∃ p, DWMLParameter.make exC9Data .units exC9ParamsEl exC9TempEl = .ok p ∧
      p.location = none ∧ p.timeLayout = none) ∧
    (∃ reg, DWMLDocument.locations exC9Data = .ok reg ∧ jsGet reg "" ≠ none) ∧
    (∃ reg, DWMLDocument.timeLayouts exC9Data = .ok reg ∧ jsGet reg "" ≠ none) :=
  ⟨⟨_, rfl,
    (falsy_key_skips_lookup exC9Data .units exC9ParamsEl exC9TempEl _ rfl).1 rfl,
    (falsy_key_skips_lookup exC9Data .units exC9ParamsEl exC9TempEl _ rfl).2 rfl⟩,
   ⟨_, rfl, fun hc => by simp [jsGet, jsKeyOfOption, XNode.nodeValue] at hc⟩,
   ⟨_, rfl, fun hc => by simp [jsGet, jsKeyOfOption, XNode.nodeValue] at hc⟩⟩
